import Mathlib

/-!
Shallow embedding of the llvm-profparser repository (two source files:
src/instrumentation_profile/types.rs and src/main.rs).

Function names are modelled as their UTF-8 byte sequences (`List Nat`,
each entry a byte value), matching Rust `String` content.  Machine
integers are modelled as `Nat` with explicit `% 2 ^ w` where overflow
matters.  The `md5` crate called by `Symtab::add_func_name` is embedded
as the standard MD5 digest algorithm (RFC 1321), operating on byte
lists; `u64::from_ne_bytes` is little-endian on all platforms this
crate targets, so the 8-byte reinterpretation is little-endian.
-/

set_option maxRecDepth 8192

/-- Truncation to a 32-bit word. -/
def mod32 (x : Nat) : Nat := x % 4294967296

/-- Bitwise complement within 32 bits. -/
def not32 (x : Nat) : Nat := x ^^^ 4294967295

/-- Left-rotation of a 32-bit word by `n` bits. -/
def leftRot (x n : Nat) : Nat := mod32 ((x <<< n) ||| (x >>> (32 - n)))

/-- Little-endian recombination of a byte list into a natural number. -/
def leNatOfBytes (bs : List Nat) : Nat := bs.foldr (fun b acc => b + 256 * acc) 0

/-- The `count` low-order bytes of `n`, little-endian. -/
def leBytes : Nat → Nat → List Nat
  | _, 0 => []
  | n, c + 1 => (n % 256) :: leBytes (n / 256) c

/-- MD5 round constants: floor(abs(sin(i+1)) * 2^32) for i = 0..63 (RFC 1321). -/
def md5K : List Nat :=
  [3614090360, 3905402710, 606105819, 3250441966, 4118548399, 1200080426,
   2821735955, 4249261313, 1770035416, 2336552879, 4294925233, 2304563134,
   1804603682, 4254626195, 2792965006, 1236535329, 4129170786, 3225465664,
   643717713, 3921069994, 3593408605, 38016083, 3634488961, 3889429448,
   568446438, 3275163606, 4107603335, 1163531501, 2850285829, 4243563512,
   1735328473, 2368359562, 4294588738, 2272392833, 1839030562, 4259657740,
   2763975236, 1272893353, 4139469664, 3200236656, 681279174, 3936430074,
   3572445317, 76029189, 3654602809, 3873151461, 530742520, 3299628645,
   4096336452, 1126891415, 2878612391, 4237533241, 1700485571, 2399980690,
   4293915773, 2240044497, 1873313359, 4264355552, 2734768916, 1309151649,
   4149444226, 3174756917, 718787259, 3951481745]

/-- MD5 per-round left-rotation amounts (RFC 1321). -/
def md5S : List Nat :=
  [7, 12, 17, 22, 7, 12, 17, 22, 7, 12, 17, 22, 7, 12, 17, 22,
   5, 9, 14, 20, 5, 9, 14, 20, 5, 9, 14, 20, 5, 9, 14, 20,
   4, 11, 16, 23, 4, 11, 16, 23, 4, 11, 16, 23, 4, 11, 16, 23,
   6, 10, 15, 21, 6, 10, 15, 21, 6, 10, 15, 21, 6, 10, 15, 21]

/-- MD5 round mixing function (F, G, H, I by round index). -/
def md5F (i b c d : Nat) : Nat :=
  if i < 16 then (b &&& c) ||| (not32 b &&& d)
  else if i < 32 then (d &&& b) ||| (not32 d &&& c)
  else if i < 48 then b ^^^ c ^^^ d
  else c ^^^ (b ||| not32 d)

/-- MD5 message-word index for round `i` (RFC 1321). -/
def md5G (i : Nat) : Nat :=
  if i < 16 then i
  else if i < 32 then (5 * i + 1) % 16
  else if i < 48 then (3 * i + 5) % 16
  else (7 * i) % 16

/-- MD5 padding: append 0x80, zero-fill to 56 mod 64, then the bit length
as a little-endian 64-bit value. -/
def md5Pad (msg : List Nat) : List Nat :=
  let len := msg.length
  let zeros := (119 - len % 64) % 64
  msg ++ (128 :: List.replicate zeros 0) ++ leBytes ((len * 8) % (2 ^ 64)) 8

/-- Split a byte list into 64-byte chunks (fuel-based structural recursion;
`fuel = l.length` always suffices since each step drops 64 bytes). -/
def chunks64Aux : Nat → List Nat → List (List Nat)
  | 0, _ => []
  | fuel + 1, l => if l = [] then [] else l.take 64 :: chunks64Aux fuel (l.drop 64)

/-- Split a byte list into 64-byte chunks. -/
def chunks64 (l : List Nat) : List (List Nat) := chunks64Aux l.length l

/-- The `g`-th little-endian 32-bit word of a 64-byte chunk. -/
def chunkWord (chunk : List Nat) (g : Nat) : Nat :=
  leNatOfBytes ((chunk.drop (4 * g)).take 4)

/-- One MD5 round: state is `(a, b, c, d)`. -/
def md5Round (chunk : List Nat) (st : Nat × Nat × Nat × Nat) (i : Nat) :
    Nat × Nat × Nat × Nat :=
  let a := st.1
  let b := st.2.1
  let c := st.2.2.1
  let d := st.2.2.2
  let f := mod32 (md5F i b c d + a + md5K.getD i 0 + chunkWord chunk (md5G i))
  (d, mod32 (b + leftRot f (md5S.getD i 0)), b, c)

/-- Process one 64-byte chunk, updating the four running words. -/
def md5Chunk (h : Nat × Nat × Nat × Nat) (chunk : List Nat) :
    Nat × Nat × Nat × Nat :=
  let st := (List.range 64).foldl (md5Round chunk) h
  (mod32 (h.1 + st.1), mod32 (h.2.1 + st.2.1),
   mod32 (h.2.2.1 + st.2.2.1), mod32 (h.2.2.2 + st.2.2.2))

/-- MD5 digest of a byte list: 16 bytes. -/
def md5 (msg : List Nat) : List Nat :=
  let h := (chunks64 (md5Pad msg)).foldl md5Chunk
    (1732584193, 4023233417, 2562383102, 271733878)
  leBytes h.1 4 ++ leBytes h.2.1 4 ++ leBytes h.2.2.1 4 ++ leBytes h.2.2.2 4

/-- The name hash of `Symtab::add_func_name`: the first 8 bytes of the MD5
digest of the name bytes, reinterpreted as a native-endian (little-endian)
64-bit integer. -/
def nameHash (name : List Nat) : Nat := leNatOfBytes ((md5 name).take 8)

/-- Sanity: RFC 1321 test vector for the empty message. -/
theorem md5_vector_empty :
    md5 [] = [212, 29, 140, 217, 143, 0, 178, 4, 233, 128, 9, 152, 236, 248, 66, 126] := by
  decide

/-- Sanity: RFC 1321 test vector for the message "abc". -/
theorem md5_vector_abc :
    md5 [97, 98, 99] = [144, 1, 80, 152, 60, 210, 79, 176, 214, 150, 63, 125, 40, 225, 127, 114] := by
  decide

/-!
Data model from src/instrumentation_profile/types.rs.
-/

/-- The two value-profiling categories (types.rs, enum ValueKind). -/
inductive ValueKind
  | IndirectCallTarget
  | MemOpSize
deriving DecidableEq, Repr

/-- ValueKind::len(): the number of value kinds. -/
def ValueKind.len : Nat := 2

/-- Symbol table (types.rs, struct Symtab): a map from 64-bit name hash to
function name.  The Rust field is a `BTreeMap<u64, String>`; it is modelled
as an association list with at most one entry per key, where
`insert` replaces any existing entry for the key and `lookup` finds the
entry for a key. -/
structure Symtab where
  names : List (Nat × List Nat)
deriving DecidableEq, Repr

/-- Symtab::len(). -/
def Symtab.len (s : Symtab) : Nat := s.names.length

/-- Symtab::add_func_name: computes the MD5-based hash of the name and
inserts (hash, name) into the map, replacing any existing entry with the
same hash (BTreeMap::insert semantics). -/
def Symtab.add_func_name (s : Symtab) (name : List Nat) : Symtab :=
  { names := (nameHash name, name) :: s.names.filter (fun p => p.1 != nameHash name) }

/-- BTreeMap::get on the symbol table: the name stored for a hash, if any. -/
def Symtab.lookup (s : Symtab) (h : Nat) : Option (List Nat) :=
  (s.names.find? (fun p => p.1 == h)).map Prod.snd

/-- Instrumentation level (types.rs, enum InstrumentationLevel). -/
inductive InstrumentationLevel
  | FrontEnd
  | Ir
deriving DecidableEq, Repr

/-- A single observed value and its observation count
(types.rs, struct InstrProfValueData). -/
structure InstrProfValueData where
  value : Nat
  count : Nat
deriving DecidableEq, Repr

/-- Value-profile payload of one record (types.rs, struct
ValueProfDataRecord); each site is a list of InstrProfValueData. -/
structure ValueProfDataRecord where
  indirect_callsites : List (List InstrProfValueData)
  mem_op_sizes : List (List InstrProfValueData)
deriving DecidableEq, Repr

/-- Counters and optional value-profile payload of one function record
(types.rs, struct InstrProfRecord); the Box indirection is dropped. -/
structure InstrProfRecord where
  counts : List Nat
  data : Option ValueProfDataRecord
deriving DecidableEq, Repr

/-- A record tagged with optional name and optional structural hash
(types.rs, struct NamedInstrProfRecord). -/
structure NamedInstrProfRecord where
  name : Option (List Nat)
  hash : Option Nat
  record : InstrProfRecord
deriving DecidableEq, Repr

/-- NamedInstrProfRecord::CS_FLAG_IN_FUNC_HASH: the constant 60, the bit
position reserved for the context-sensitive flag. -/
def CS_FLAG_IN_FUNC_HASH : Nat := 60

/-- NamedInstrProfRecord::num_value_sites: length of the site list of the
requested kind, or 0 when the payload is absent (`unwrap_or_default`). -/
def NamedInstrProfRecord.num_value_sites (r : NamedInstrProfRecord)
    (valuekind : ValueKind) : Nat :=
  match valuekind, r.record.data with
  | ValueKind.IndirectCallTarget, some x => x.indirect_callsites.length
  | ValueKind.MemOpSize, some x => x.mem_op_sizes.length
  | _, none => 0

/-- NamedInstrProfRecord::has_cs_flag: `((hash >> 60) & 1) != 0` on
`hash.unwrap_or_default()`. -/
def NamedInstrProfRecord.has_cs_flag (r : NamedInstrProfRecord) : Bool :=
  ((r.hash.getD 0) >>> CS_FLAG_IN_FUNC_HASH) &&& 1 != 0

/-- NamedInstrProfRecord::set_cs_flag: `let x = self.hash.get_or_insert(0);
*x &= Self::CS_FLAG_IN_FUNC_HASH;` — an AND with the decimal constant 60
(not with `1 << 60`). -/
def NamedInstrProfRecord.set_cs_flag (r : NamedInstrProfRecord) : NamedInstrProfRecord :=
  { r with hash := some ((r.hash.getD 0) &&& CS_FLAG_IN_FUNC_HASH) }

/-- NamedInstrProfRecord::counts. -/
def NamedInstrProfRecord.counts (r : NamedInstrProfRecord) : List Nat :=
  r.record.counts

/-- A decoded profile (types.rs, struct InstrumentationProfile). -/
structure InstrumentationProfile where
  version : Option Nat
  has_csir : Bool
  is_ir : Bool
  records : List NamedInstrProfRecord
  symtab : Symtab
deriving DecidableEq, Repr

/-- InstrumentationProfile::is_ir_level_profile. -/
def InstrumentationProfile.is_ir_level_profile (p : InstrumentationProfile) : Bool :=
  p.is_ir

/-- InstrumentationProfile::has_csir_level_profile. -/
def InstrumentationProfile.has_csir_level_profile (p : InstrumentationProfile) : Bool :=
  p.has_csir

/-- InstrumentationProfile::get_level: Ir when is_ir_level_profile, else
FrontEnd. -/
def InstrumentationProfile.get_level (p : InstrumentationProfile) : InstrumentationLevel :=
  if p.is_ir_level_profile then InstrumentationLevel.Ir
  else InstrumentationLevel.FrontEnd

/-!
Show command from src/main.rs.
-/

/-- Whether `pat` occurs at the head of `hay`. -/
def leadSeq : List Nat → List Nat → Bool
  | _, [] => true
  | [], _ :: _ => false
  | h :: t, p :: ps => h == p && leadSeq t ps

/-- Rust `str::contains`: whether `pat` occurs as a contiguous
subsequence of `hay`. -/
def hasSub (hay pat : List Nat) : Bool :=
  match hay with
  | [] => pat.isEmpty
  | _ :: t => leadSeq hay pat || hasSub t pat

/-- check_function (main.rs): with a pattern, whether the name contains the
pattern as a substring (false when the name is absent); false without a
pattern. -/
def check_function (name : Option (List Nat)) (pattern : Option (List Nat)) : Bool :=
  match pattern with
  | some pat => (name.map (fun x => hasSub x pat)).getD false
  | none => false

/-- Modelled from the spec: `ProfileSummary` lives in
src/instrumentation_profile/summary.rs, which is not among the source
files; the spec (§3, §4.4) describes the Summary as a derived aggregate
over the records fed to it.  For the claims here only the collection of
records passed to `ProfileSummary::add_record` matters, so the summary is
modelled as that list of records, in call order. -/
structure ShowState where
  shownFuncs : Nat
  summaryRecords : List InstrProfRecord
deriving DecidableEq, Repr

/-- The initial state of the show loop: no functions shown, empty summary. -/
def initShowState : ShowState := { shownFuncs := 0, summaryRecords := [] }

/-- One iteration of the `for func in &profile.records` loop of
ShowCommand::run (main.rs):
records missing a name or a hash are skipped (`continue`);
in an IR-level profile, records whose context-sensitive flag differs from
`--showcs` are skipped; every surviving record is added to the summary;
if selected for display (`--all-functions` or a `--function` pattern
match), the counter for shown functions is incremented and, for a
front-end profile, `func.record.counts[0]` is read — `none` models the
out-of-bounds panic of that unchecked index when the counter vector is
empty. -/
def processRecord (is_ir_instr showcs all_functions : Bool)
    (pattern : Option (List Nat)) (st : ShowState)
    (func : NamedInstrProfRecord) : Option ShowState :=
  match func.name, func.hash with
  | some nm, some _ =>
    if is_ir_instr && (func.has_cs_flag != showcs) then some st
    else
      let shw := all_functions || check_function (some nm) pattern
      let st1 : ShowState :=
        { st with summaryRecords := st.summaryRecords ++ [func.record] }
      if shw then
        if !is_ir_instr && func.record.counts.length == 0 then none
        else some { st1 with shownFuncs := st1.shownFuncs + 1 }
      else some st1
  | _, _ => some st

/-- The whole record loop of ShowCommand::run over a profile's records,
threading the state through `processRecord`; `none` models a panic. -/
def runShowLoop (is_ir_instr showcs all_functions : Bool)
    (pattern : Option (List Nat)) (st : ShowState) :
    List NamedInstrProfRecord → Option ShowState
  | [] => some st
  | f :: fs =>
    match processRecord is_ir_instr showcs all_functions pattern st f with
    | some st1 => runShowLoop is_ir_instr showcs all_functions pattern st1 fs
    | none => none

/-!
Claim theorems.
-/

/-- C1: the claim states that after `set_cs_flag` the context-sensitive
flag is set, i.e. `has_cs_flag()` returns true.  The code instead computes
`hash & 60` (a bitwise AND with the decimal constant 60, the bit
*position*), which clears bit 60, so `has_cs_flag()` returns false after
`set_cs_flag` on every record — the code contradicts the claim and the
spec's stated intent (set with OR of `1 << 60`). -/
theorem c1_set_cs_flag_never_sets_flag (r : NamedInstrProfRecord) :
    (r.set_cs_flag).has_cs_flag = false := by
  unfold NamedInstrProfRecord.set_cs_flag NamedInstrProfRecord.has_cs_flag
      CS_FLAG_IN_FUNC_HASH
  have h1 : (r.hash.getD 0) &&& 60 ≤ 60 := Nat.and_le_right
  have h2 : ((r.hash.getD 0) &&& 60) >>> 60 = 0 := by
    rw [Nat.shiftRight_eq_div_pow]
    exact Nat.div_eq_of_lt (lt_of_le_of_lt h1 (by norm_num))
  simp [h2]

/-- C7: `get_level` is computed solely from `is_ir_level_profile()`:
it equals the two-valued function of the `is_ir` field alone, returning
`Ir` exactly when `is_ir` is true and `FrontEnd` exactly when it is
false. -/
theorem c7_get_level_from_is_ir (p : InstrumentationProfile) :
    p.get_level = (if p.is_ir then InstrumentationLevel.Ir
                   else InstrumentationLevel.FrontEnd) ∧
    (p.get_level = InstrumentationLevel.Ir ↔ p.is_ir_level_profile = true) ∧
    (p.get_level = InstrumentationLevel.FrontEnd ↔ p.is_ir_level_profile = false) := by
  cases hp : p.is_ir <;>
    simp [InstrumentationProfile.get_level,
          InstrumentationProfile.is_ir_level_profile, hp]

/-- C8: when the hash is present, `has_cs_flag()` returns true if and only
if bit 60 of the structural hash is 1, the read being shift right by 60
then mask with 1. -/
theorem c8_has_cs_flag_bit60 (r : NamedInstrProfRecord) (h : Nat)
    (hh : r.hash = some h) :
    (r.has_cs_flag = true ↔ (h >>> 60) &&& 1 = 1) ∧
    (r.has_cs_flag = true ↔ h.testBit 60 = true) := by
  unfold NamedInstrProfRecord.has_cs_flag CS_FLAG_IN_FUNC_HASH
  have hs : h >>> 60 = h / 2 ^ 60 := Nat.shiftRight_eq_div_pow h 60
  constructor
  · rw [hh]
    simp only [Option.getD_some, bne_iff_ne, ne_eq, Nat.and_one_is_mod]
    omega
  · rw [hh]
    simp only [Option.getD_some, bne_iff_ne, ne_eq, Nat.and_one_is_mod,
      Nat.testBit_to_div_mod, decide_eq_true_eq, hs]
    omega

/-- A record whose structural hash is exactly `1 << 60` (bit 60 set). -/
def sampleCsRecord : NamedInstrProfRecord :=
  { name := none, hash := some 1152921504606846976,
    record := { counts := [], data := none } }

/-- C8 witness: a record whose hash has bit 60 set. -/
theorem c8_has_cs_flag_bit60_witness :
    sampleCsRecord.hash = some 1152921504606846976 ∧
    ((sampleCsRecord.has_cs_flag = true ↔ (1152921504606846976 >>> 60) &&& 1 = 1) ∧
     (sampleCsRecord.has_cs_flag = true ↔ Nat.testBit 1152921504606846976 60 = true)) :=
  ⟨rfl, c8_has_cs_flag_bit60 sampleCsRecord 1152921504606846976 rfl⟩

/-- C10: `num_value_sites` returns 0 for both value kinds when the
value-profile payload is absent, and otherwise the length of the site
list of the requested kind. -/
theorem c10_num_value_sites (r : NamedInstrProfRecord) :
    (r.record.data = none →
      r.num_value_sites ValueKind.IndirectCallTarget = 0 ∧
      r.num_value_sites ValueKind.MemOpSize = 0) ∧
    (∀ d, r.record.data = some d →
      r.num_value_sites ValueKind.IndirectCallTarget = d.indirect_callsites.length ∧
      r.num_value_sites ValueKind.MemOpSize = d.mem_op_sizes.length) := by
  constructor
  · intro hd
    constructor <;> simp [NamedInstrProfRecord.num_value_sites, hd]
  · intro d hd
    constructor <;> simp [NamedInstrProfRecord.num_value_sites, hd]

/-- A record with no value-profile payload. -/
def sampleNoPayload : NamedInstrProfRecord :=
  { name := none, hash := none, record := { counts := [], data := none } }

/-- A value-profile payload with two indirect-call sites and one
memory-op site. -/
def samplePayload : ValueProfDataRecord :=
  { indirect_callsites := [[], []], mem_op_sizes := [[]] }

/-- A record carrying `samplePayload`. -/
def sampleWithPayload : NamedInstrProfRecord :=
  { name := none, hash := none,
    record := { counts := [], data := some samplePayload } }

/-- C10 witness: one record without payload, one with a payload holding
two indirect-call sites and one memory-op site. -/
theorem c10_num_value_sites_witness :
    (sampleNoPayload.num_value_sites ValueKind.IndirectCallTarget = 0 ∧
     sampleNoPayload.num_value_sites ValueKind.MemOpSize = 0) ∧
    (sampleWithPayload.num_value_sites ValueKind.IndirectCallTarget =
        samplePayload.indirect_callsites.length ∧
     sampleWithPayload.num_value_sites ValueKind.MemOpSize =
        samplePayload.mem_op_sizes.length) :=
  ⟨(c10_num_value_sites sampleNoPayload).1 rfl,
   (c10_num_value_sites sampleWithPayload).2 samplePayload rfl⟩

/-- C6: a record missing its name or its hash is skipped silently by the
show loop: the iteration produces no error (the result is `some`), the
state is unchanged — nothing displayed, the shown-functions count not
incremented, nothing added to the summary. -/
theorem c6_unusable_records_skipped (is_ir_instr showcs all_functions : Bool)
    (pattern : Option (List Nat)) (st : ShowState)
    (func : NamedInstrProfRecord)
    (h : func.name = none ∨ func.hash = none) :
    processRecord is_ir_instr showcs all_functions pattern st func = some st := by
  obtain ⟨nm, hs, rec⟩ := func
  cases nm <;> cases hs
  · rfl
  · rfl
  · rfl
  · rcases h with h | h <;> simp at h

/-- C6 witness: a record with a hash but no name is skipped with the
state unchanged. -/
theorem c6_unusable_records_skipped_witness :
    processRecord true true true none initShowState
      { name := none, hash := some 5,
        record := { counts := [7], data := none } } = some initShowState :=
  c6_unusable_records_skipped true true true none initShowState
    { name := none, hash := some 5, record := { counts := [7], data := none } }
    (Or.inl rfl)

/-- A usable record (name and hash present) whose counter vector is
empty. -/
def emptyCountsRecord : NamedInstrProfRecord :=
  { name := some [102], hash := some 1, record := { counts := [], data := none } }

/-- C9: in a front-end (non-IR) profile, the show loop reads
`func.record.counts[0]` by unchecked indexing; for a usable record with an
empty counter vector the access is out of bounds, so processing that
record hits the error branch (`none`, modelling the panic) — display is
not total. -/
theorem c9_counts_index_panic_reachable :
    emptyCountsRecord.name.isSome = true ∧
    emptyCountsRecord.hash.isSome = true ∧
    emptyCountsRecord.record.counts = [] ∧
    processRecord false false true none initShowState emptyCountsRecord = none := by
  decide

/-- A usable record whose context-sensitive flag is clear (hash 0). -/
def flatRecord : NamedInstrProfRecord :=
  { name := some [97], hash := some 0, record := { counts := [1], data := none } }

/-- C2 counterexample: the claim says that in the show command, for
*every* profile, a usable record is processed only if its
context-sensitive flag equals `--showcs`.  In a non-IR (front-end)
profile with `--showcs` set, `flatRecord` has a clear flag — the filter
condition is violated — yet the record *is* processed: it is added to
the summary and the shown-functions count is incremented, because the
code applies the filter only when `is_ir_instr` holds. -/
theorem c2_cs_filter_counterexample :
    flatRecord.has_cs_flag = false ∧ (false : Bool) ≠ true ∧
    processRecord false true true none initShowState flatRecord =
      some { shownFuncs := 1, summaryRecords := [{ counts := [1], data := none }] } := by
  decide

/-- C2 amended claim: the context-sensitivity filter applies only to
IR-level profiles: when the profile is IR-level, a usable record whose
`has_cs_flag()` differs from `--showcs` is skipped — not displayed, not
counted, not added to the summary, and without error; non-IR profiles
process usable records regardless of the flag. -/
theorem c2_cs_filter_ir_only (showcs all_functions : Bool)
    (pattern : Option (List Nat)) (st : ShowState)
    (func : NamedInstrProfRecord) (nm : List Nat) (h : Nat)
    (hn : func.name = some nm) (hh : func.hash = some h)
    (hcs : func.has_cs_flag ≠ showcs) :
    processRecord true showcs all_functions pattern st func = some st := by
  unfold processRecord
  rw [hn, hh]
  have hbne : (func.has_cs_flag != showcs) = true := by
    cases hf : func.has_cs_flag <;> cases hsc : showcs <;> simp_all
  simp [hbne]

/-- C2 amended-claim witness: in an IR-level profile with `--showcs` set,
a usable flat record is skipped with the state unchanged. -/
theorem c2_cs_filter_ir_only_witness :
    processRecord true true true none initShowState flatRecord = some initShowState :=
  c2_cs_filter_ir_only true true none initShowState flatRecord [97] 0 rfl rfl
    (by decide)

/-!
Symbol-table lemmas for the round-trip and collision claims.
-/

/-- Filtering out the entries of one key does not change the search for a
different key. -/
theorem find_filter_ne (l : List (Nat × List Nat)) (h k : Nat) (hne : h ≠ k) :
    (l.filter (fun p => p.1 != k)).find? (fun p => p.1 == h) =
      l.find? (fun p => p.1 == h) := by
  induction l with
  | nil => rfl
  | cons a t ih =>
    by_cases hak : a.1 = k
    · have h1 : (a.1 != k) = false := by simp [hak]
      have h2 : (a.1 == h) = false := by simp [hak, Ne.symm hne]
      simp [List.filter_cons, h1, List.find?_cons, h2, ih]
    · have h1 : (a.1 != k) = true := by simp [hak]
      by_cases hah : a.1 = h
      · simp [List.filter_cons, h1, List.find?_cons, hah, hne]
      · have h2 : (a.1 == h) = false := by simp [hah]
        simp [List.filter_cons, h1, List.find?_cons, h2, ih]

/-- Lookup after one insertion: the inserted name for its own hash, the
previous content for every other hash. -/
theorem lookup_add_func_name (s : Symtab) (n : List Nat) (h : Nat) :
    (s.add_func_name n).lookup h =
      if nameHash n = h then some n else s.lookup h := by
  unfold Symtab.add_func_name Symtab.lookup
  by_cases heq : nameHash n = h
  · simp [List.find?_cons, heq]
  · have h2 : (nameHash n == h) = false := by simp [heq]
    simp only [List.find?_cons, h2, if_neg heq]
    rw [find_filter_ne _ _ _ (fun hc => heq hc.symm)]

/-- The most recently inserted name with the given hash among `l`
(searched from the end), falling back to `fallback` when none has it. -/
def mostRecentWithHash (l : List (List Nat)) (h : Nat)
    (fallback : Option (List Nat)) : Option (List Nat) :=
  match l.reverse.find? (fun n => nameHash n == h) with
  | some n => some n
  | none => fallback

/-- Lookup after a sequence of insertions is the most recently inserted
name with that hash, falling back to the original table. -/
theorem lookup_foldl_add (l : List (List Nat)) (s : Symtab) (h : Nat) :
    (l.foldl Symtab.add_func_name s).lookup h =
      mostRecentWithHash l h (s.lookup h) := by
  induction l generalizing s with
  | nil => rfl
  | cons n t ih =>
    rw [List.foldl_cons, ih, lookup_add_func_name]
    unfold mostRecentWithHash
    rw [List.reverse_cons, List.find?_append]
    cases hf : t.reverse.find? (fun m => nameHash m == h) with
    | some m => simp [Option.or]
    | none =>
      by_cases heq : nameHash n = h
      · simp [Option.or, List.find?, heq]
      · have hb : (nameHash n == h) = false := by simp [heq]
        simp [Option.or, List.find?, hb, heq]

/-- Insertion preserves distinctness of the stored hashes. -/
theorem add_func_name_keys_nodup (s : Symtab) (n : List Nat)
    (hs : (s.names.map Prod.fst).Nodup) :
    (((s.add_func_name n).names).map Prod.fst).Nodup := by
  unfold Symtab.add_func_name
  simp only [List.map_cons, List.nodup_cons]
  constructor
  · intro hmem
    obtain ⟨p, hp, hph⟩ := List.mem_map.mp hmem
    have := List.of_mem_filter hp
    simp [hph] at this
  · exact ((List.filter_sublist _).map Prod.fst).nodup hs

/-- Any sequence of insertions starting from a table with distinct hashes
yields a table with distinct hashes. -/
theorem foldl_add_keys_nodup (l : List (List Nat)) (s : Symtab)
    (hs : (s.names.map Prod.fst).Nodup) :
    (((l.foldl Symtab.add_func_name s).names).map Prod.fst).Nodup := by
  induction l generalizing s with
  | nil => exact hs
  | cons n t ih => exact ih _ (add_func_name_keys_nodup s n hs)

/-- C3: symbol-table round-trip — after `add_func_name(name)`, looking up
the computed hash of that name yields `Some(name)`, and this persists
through any later insertions whose names do not collide with that hash. -/
theorem c3_symtab_round_trip (s : Symtab) (name : List Nat)
    (later : List (List Nat))
    (hcol : ∀ n ∈ later, nameHash n ≠ nameHash name) :
    (later.foldl Symtab.add_func_name (s.add_func_name name)).lookup
      (nameHash name) = some name := by
  rw [lookup_foldl_add]
  unfold mostRecentWithHash
  have hnone : later.reverse.find? (fun n => nameHash n == nameHash name) = none := by
    rw [List.find?_eq_none]
    intro x hx
    simp only [beq_iff_eq]
    exact hcol x (List.mem_reverse.mp hx)
  rw [hnone, lookup_add_func_name, if_pos rfl]

/-- C3 witness: insert the name "a", then the non-colliding name "b";
the lookup of hash("a") still yields "a". -/
theorem c3_symtab_round_trip_witness :
    (∀ n ∈ [[98]], nameHash n ≠ nameHash [97]) ∧
    (([[98]] : List (List Nat)).foldl Symtab.add_func_name
        (Symtab.add_func_name { names := [] } [97])).lookup (nameHash [97])
      = some [97] :=
  ⟨by decide, c3_symtab_round_trip { names := [] } [97] [[98]] (by decide)⟩

/-- C4: symbol-table collision invariant — after any sequence of
`add_func_name` calls on an initially empty table, the stored hashes are
pairwise distinct (hash→name is a function), and the name found for any
hash is exactly the most recently inserted name with that hash, so on a
collision of two distinct names only the later-inserted one is kept. -/
theorem c4_symtab_collision_invariant (l : List (List Nat)) :
    (((l.foldl Symtab.add_func_name { names := [] }).names).map Prod.fst).Nodup ∧
    ∀ h, (l.foldl Symtab.add_func_name { names := [] }).lookup h =
      mostRecentWithHash l h none := by
  constructor
  · exact foldl_add_keys_nodup l { names := [] } (by simp)
  · intro h
    rw [lookup_foldl_add]
    rfl

/-- C5: the hash stored by `add_func_name` is the first 8 bytes of the MD5
digest of the name bytes reinterpreted as a native-endian (little-endian)
64-bit integer: the inserted entry carries exactly that key, and looking
that value up returns the name. -/
theorem c5_add_func_name_md5_hash (s : Symtab) (name : List Nat) :
    (leNatOfBytes ((md5 name).take 8), name) ∈ (s.add_func_name name).names ∧
    (s.add_func_name name).lookup (leNatOfBytes ((md5 name).take 8)) = some name := by
  constructor
  · show (nameHash name, name) ∈ (s.add_func_name name).names
    unfold Symtab.add_func_name
    exact List.mem_cons_self _ _
  · show (s.add_func_name name).lookup (nameHash name) = some name
    rw [lookup_add_func_name, if_pos rfl]
